import Mathlib

/-!
Verification of the 2GIS scraping pipeline (parsing-2gis).

This file gives a shallow embedding of the pipeline pieces the claims are
about, translated from the TypeScript source:

* a model of dynamically typed JavaScript values (`JsVal`) together with the
  JS operations the code uses (property access, optional chaining, nullish
  coalescing, truthiness, strict equality, string coercion, addition);
* `findContact` (src/utils.ts), `extractOrganization` with its per-group
  try/catch blocks (scripts/scrape-search.ts), the top-level fallback record,
  and the list-mode minimal record (src/scraper/index.ts);
* `withRetry` (src/scraper/helpers.ts) as a trace-producing function;
* the review accumulation and DOM pagination loop of `scrapeReviews`
  (src/scraper/reviews.ts);
* `validateOptions` and the run order of scripts/scrape.ts;
* `extractDataFromPage` with API-response interception (early
  scripts/scrape-search.ts revision);
* the firm-target selection of `scrapeSearchResults`.

Exceptions are modelled with `Except Unit`; a JS value that may be `undefined`
is represented by the `JsVal.undefined` constructor, so absence and presence of
object fields are tracked faithfully.
-/

/-- A JavaScript runtime value, as the 2GIS client state exposes them:
`undefined`, `null`, `NaN`, booleans, (integer) numbers, strings, arrays
and plain objects. -/
inductive JsVal : Type where
  | undefined
  | null
  | nan
  | bool (b : Bool)
  | num (n : Int)
  | str (s : String)
  | arr (elems : List JsVal)
  | obj (fields : List (String × JsVal))
deriving Repr

namespace JsVal

/-- JS nullish test: `undefined` and `null` are nullish. -/
def nullish : JsVal → Bool
  | .undefined => true
  | .null => true
  | _ => false

/-- JS truthiness: `undefined`, `null`, `NaN`, `false`, `0` and the empty
string are falsy; arrays and objects are always truthy. -/
def truthy : JsVal → Bool
  | .undefined => false
  | .null => false
  | .nan => false
  | .bool b => b
  | .num n => n != 0
  | .str s => s != ""
  | .arr _ => true
  | .obj _ => true

/-- Whether `typeof v` is `number` (`NaN` included). -/
def isNumber : JsVal → Bool
  | .num _ => true
  | .nan => true
  | _ => false

/-- Whether `typeof v` is `string`. -/
def isString : JsVal → Bool
  | .str _ => true
  | _ => false

/-- `Array.isArray v`. -/
def isArray : JsVal → Bool
  | .arr _ => true
  | _ => false

/-- Whether the value is exactly `undefined` (for `v !== undefined` tests). -/
def isUndefined : JsVal → Bool
  | .undefined => true
  | _ => false

end JsVal

open JsVal in
/-- Plain member access `base.k`: throws a TypeError when the base is
nullish, looks the key up on objects, and yields `undefined` on other
primitives and arrays (no prototype properties are modelled). -/
def getProp : JsVal → String → Except Unit JsVal
  | .undefined, _ => .error ()
  | .null, _ => .error ()
  | .obj fields, k => .ok ((fields.lookup k).getD .undefined)
  | _, _ => .ok .undefined

/-- Optional member access `base?.k`: `undefined` on a nullish base,
otherwise as `getProp` (which cannot throw on a non-nullish base). -/
def optProp (v : JsVal) (k : String) : JsVal :=
  match v with
  | .undefined => .undefined
  | .null => .undefined
  | .obj fields => (fields.lookup k).getD .undefined
  | _ => .undefined

/-- Optional index access `base?.[i]`: `undefined` on a nullish base, the
element on arrays, a single-character string on strings. -/
def optIndex (v : JsVal) (i : Nat) : JsVal :=
  match v with
  | .arr xs => (xs.get? i).getD .undefined
  | .str s => (s.toList.get? i).map (fun c => JsVal.str (String.mk [c])) |>.getD .undefined
  | _ => .undefined

/-- Nullish coalescing `a ?? b`. -/
def nullCo (a b : JsVal) : JsVal :=
  if a.nullish then b else a

/-- Logical or `a || b` (value-returning, as JS). -/
def jsOr (a b : JsVal) : JsVal :=
  if a.truthy then a else b

/-- Strict equality `a === b` for the comparisons the source performs
(always against a primitive literal): `NaN` is unequal to everything, and
arrays/objects are compared by reference, which for the distinct values in
this model is never an equality the source observes. -/
def jsStrictEq (a b : JsVal) : Bool :=
  match a, b with
  | .undefined, .undefined => true
  | .null, .null => true
  | .bool x, .bool y => x == y
  | .num x, .num y => x == y
  | .str x, .str y => x == y
  | _, _ => false

mutual

/-- JS string coercion (template literals, `String(v)`). Arrays coerce to
their comma-joined elements, objects to `[object Object]`. -/
def jsToString : JsVal → String
  | .undefined => "undefined"
  | .null => "null"
  | .nan => "NaN"
  | .bool b => cond b "true" "false"
  | .num n => toString n
  | .str s => s
  | .arr xs => jsToStringElems xs
  | .obj _ => "\x7bobject\x7d"

/-- Comma-joined coercion of array elements; nullish elements coerce to the
empty string (JS `Array.prototype.toString`). -/
def jsToStringElems : List JsVal → String
  | [] => ""
  | x :: rest =>
    (match x with
      | .undefined => ""
      | .null => ""
      | v => jsToString v)
    ++ (match rest with | [] => "" | _ :: _ => ",")
    ++ jsToStringElems rest

end

/-- `Array.prototype.join(sep)`: elements coerced, nullish elements as
empty strings. -/
def jsJoin (xs : List JsVal) (sep : String) : String :=
  String.intercalate sep (xs.map fun v =>
    match v with
    | .undefined => ""
    | .null => ""
    | w => jsToString w)

/-- Numeric coercion used by `+` when neither operand is string-like:
`none` denotes `NaN`. -/
def toNumForAdd : JsVal → Option Int
  | .num n => some n
  | .bool b => some (cond b 1 0)
  | .null => some 0
  | _ => none

/-- JS addition `a + b`: string concatenation when either operand is a
string, array or object (after coercion), numeric addition otherwise,
with `NaN` contaminating. -/
def jsAdd (a b : JsVal) : JsVal :=
  let stringy : JsVal → Bool := fun v =>
    match v with
    | .str _ => true
    | .arr _ => true
    | .obj _ => true
    | _ => false
  if stringy a || stringy b then
    .str (jsToString a ++ jsToString b)
  else
    match toNumForAdd a, toNumForAdd b with
    | some x, some y => .num (x + y)
    | _, _ => .nan

/-- `Object.values v` for the non-nullish values the source guards for:
field values of objects, elements of arrays, characters of strings, and
the empty list on remaining primitives. -/
def objectValues : JsVal → List JsVal
  | .obj fields => fields.map (·.2)
  | .arr xs => xs
  | .str s => s.toList.map (fun c => JsVal.str (String.mk [c]))
  | _ => []

/-- `Array.prototype.find` with a possibly-throwing callback: the first
element whose predicate result is true, `undefined` when none matches,
propagating a callback throw. -/
def jsFind (xs : List JsVal) (p : JsVal → Except Unit Bool) : Except Unit JsVal :=
  match xs with
  | [] => .ok .undefined
  | x :: rest =>
    match p x with
    | .error e => .error e
    | .ok true => .ok x
    | .ok false => jsFind rest p

/-! ## Organization records as JS objects

The normalizer returns a JS object literal built with conditional spreads;
we represent such an object as an ordered field list, so that presence and
absence of fields is tracked exactly as the source produces them. -/

/-- The field list of a JS object literal. -/
abbrev JsObjFields := List (String × JsVal)

/-- First-binding lookup in an object field list. -/
def lookupField : JsObjFields → String → Option JsVal
  | [], _ => none
  | (k, v) :: rest, key => if k = key then some v else lookupField rest key

/-- A conditional spread `...(c && \x7b k: v \x7d)` contributes the binding
exactly when the condition holds. -/
def optField (c : Bool) (k : String) (v : JsVal) : JsObjFields :=
  if c then [(k, v)] else []

/-! ## findContact (src/utils.ts) -/

/-- Callback `(c) => c.type === contactType` of the inner `find`. -/
def contactPred (contactType : String) (c : JsVal) : Except Unit Bool := do
  let t ← getProp c "type"
  pure (jsStrictEq t (.str contactType))

/-- Evaluates `cs?.find((c) => c.type === contactType)`: `undefined` on a
nullish base, a `find` over arrays, and a TypeError on other values
(`find` is not a function there). -/
def contactsFind (cs : JsVal) (contactType : String) : Except Unit JsVal :=
  match cs with
  | .undefined => .ok .undefined
  | .null => .ok .undefined
  | .arr xs => jsFind xs (contactPred contactType)
  | _ => .error ()

/-- Callback `(g) => g.contacts?.find((c) => c.type === contactType)` of the
outer `find`; the group predicate is the truthiness of the found contact. -/
def groupPred (contactType : String) (g : JsVal) : Except Unit Bool := do
  let cs ← getProp g "contacts"
  let r ← contactsFind cs contactType
  pure r.truthy

/-- `findContact` from src/utils.ts:

`item.contact_groups?.find((g) => g.contacts?.find((c) => c.type === t))?.contacts?.find((c) => c.type === t)?.value` -/
def findContact (item : JsVal) (contactType : String) : Except Unit JsVal := do
  let cg ← getProp item "contact_groups"
  let g ← (match cg with
    | .undefined => pure JsVal.undefined
    | .null => pure JsVal.undefined
    | .arr gs => jsFind gs (groupPred contactType)
    | _ => Except.error ())
  let cs ← (match g with
    | .undefined => pure JsVal.undefined
    | .null => pure JsVal.undefined
    | _ => getProp g "contacts")
  let r ← contactsFind cs contactType
  match r with
  | .undefined => pure JsVal.undefined
  | .null => pure JsVal.undefined
  | _ => getProp r "value"

/-! ## extractOrganization (scripts/scrape-search.ts)

Each field group of the normalizer lives in its own try/catch scope; a
throw inside a group leaves the state assigned so far and moves on. Only
the contact lookups, the inner name-catch re-access and the final object
literal accesses sit directly in the outer try, so only those propagate to
the top-level fallback. -/

/-- The name/description group with its inner catch; the catch itself
re-reads `item.name` and can re-throw (propagating to the outer catch). -/
def nameDescBlock (item : JsVal) : Except Unit (JsVal × JsVal) :=
  let attempt : Except Unit (JsVal × JsVal) := do
    let nameEx ← getProp item "name_ex"
    if nameEx.truthy then
      let primary ← getProp nameEx "primary"
      let itemName ← getProp item "name"
      let ext ← getProp nameEx "extension"
      pure (nullCo primary (nullCo itemName (.str "")), ext)
    else
      let itemName ← getProp item "name"
      pure (nullCo itemName (.str ""), .undefined)
  match attempt with
  | .ok r => .ok r
  | .error _ => do
    let itemName ← getProp item "name"
    pure (nullCo itemName (.str "Unknown"), .undefined)

/-- The mutable locals of the address group. -/
structure AddrState where
  address : JsVal := .str ""
  addressComment : JsVal := .undefined
  postcode : JsVal := .undefined
  city : JsVal := .undefined
  district : JsVal := .undefined
  region : JsVal := .undefined
  country : JsVal := .undefined
deriving Repr

/-- One iteration of the components loop: `switch (component.type)` with a
case per tag assigning `component.name`. -/
def addrComponentStep (st : AddrState) (c : JsVal) : Except Unit AddrState :=
  match getProp c "type" with
  | .error e => .error e
  | .ok t =>
    if jsStrictEq t (.str "city") then
      match getProp c "name" with
      | .error e => .error e
      | .ok n => .ok { st with city := n }
    else if jsStrictEq t (.str "district") then
      match getProp c "name" with
      | .error e => .error e
      | .ok n => .ok { st with district := n }
    else if jsStrictEq t (.str "region") then
      match getProp c "name" with
      | .error e => .error e
      | .ok n => .ok { st with region := n }
    else if jsStrictEq t (.str "country") then
      match getProp c "name" with
      | .error e => .error e
      | .ok n => .ok { st with country := n }
    else
      .ok st

/-- The components loop; a throw (nullish component) aborts the loop and the
enclosing catch keeps the state assigned so far. -/
def runAddrComponents : List JsVal → AddrState → AddrState
  | [], st => st
  | c :: rest, st =>
    match addrComponentStep st c with
    | .error _ => st
    | .ok st2 => runAddrComponents rest st2

/-- The address group of the normalizer, including its catch: on a throw the
fields assigned before the throw are kept. -/
def extractAddressBlock (item : JsVal) : AddrState :=
  match getProp item "address_name" with
  | .error _ => {}
  | .ok an =>
    let st0 : AddrState := { address := nullCo an (.str "") }
    match getProp item "address_comment" with
    | .error _ => st0
    | .ok ac =>
      let st1 := { st0 with addressComment := ac }
      match getProp item "address" with
      | .error _ => st1
      | .ok addr =>
        if addr.truthy then
          match getProp addr "postcode" with
          | .error _ => st1
          | .ok pc =>
            let st2 := { st1 with postcode := pc }
            match getProp addr "components" with
            | .error _ => st2
            | .ok comps =>
              if comps.truthy then
                match comps with
                | .arr cs => runAddrComponents cs st2
                | .str s => runAddrComponents (s.toList.map (fun ch => JsVal.str (String.mk [ch]))) st2
                | _ => st2
              else
                st2
        else
          st1

/-- One schedule entry: the template literal over `h.day` and
`h.working_hours?.join(', ') ?? 'closed'`. -/
def scheduleEntry (h : JsVal) : Except Unit String := do
  let d ← getProp h "day"
  let wh ← getProp h "working_hours"
  let j ← (match wh with
    | .undefined => pure JsVal.undefined
    | .null => pure JsVal.undefined
    | .arr xs => pure (JsVal.str (jsJoin xs ", "))
    | _ => Except.error ())
  pure (jsToString d ++ ": " ++ jsToString (nullCo j (.str "closed")))

/-- The schedule group: a working-hours array maps to joined entry strings,
a plain string is taken as is, and a throw leaves the field undefined. -/
def extractScheduleBlock (item : JsVal) : JsVal :=
  match getProp item "schedule" with
  | .error _ => .undefined
  | .ok sched =>
    let hours := optProp sched "working_hours"
    if hours.truthy then
      match hours with
      | .arr hs =>
        if hs.length > 0 then
          match hs.mapM scheduleEntry with
          | .error _ => .undefined
          | .ok entries => .str (String.intercalate "; " entries)
        else
          .undefined
      | .str s => .str s
      | _ => .undefined
    else
      .undefined

/-- The rating/review-count group: each kept only when of number type. -/
def extractReviewsBlock (item : JsVal) : JsVal × JsVal :=
  match getProp item "reviews" with
  | .error _ => (.undefined, .undefined)
  | .ok rv =>
    if rv.truthy then
      let r := optProp rv "rating"
      let c := optProp rv "general_rating_count"
      (if r.isNumber then r else .undefined, if c.isNumber then c else .undefined)
    else
      (.undefined, .undefined)

/-- The rubrics group: names mapped from an array and filtered to strings; a
throw (nullish rubric) or a non-array leaves the empty array. -/
def extractRubricsBlock (item : JsVal) : List JsVal :=
  match getProp item "rubrics" with
  | .error _ => []
  | .ok rb =>
    match rb with
    | .arr rs =>
      match rs.mapM (fun r => getProp r "name") with
      | .error _ => []
      | .ok names => names.filter (fun n => n.isString)
    | _ => []

/-- The coordinates group: an object with `lat`/`lon` when both are truthy. -/
def extractCoordinatesBlock (item : JsVal) : JsVal :=
  match getProp item "point" with
  | .error _ => .undefined
  | .ok pt =>
    if (optProp pt "lat").truthy && (optProp pt "lon").truthy then
      .obj [("lat", optProp pt "lat"), ("lon", optProp pt "lon")]
    else
      .undefined

/-- The nearest-metro group: the first three stations mapped to
name/distance/line/color objects, filtered to truthy names; an empty
result or a throw leaves the field undefined. -/
def extractMetroBlock (item : JsVal) : JsVal :=
  match getProp item "links" with
  | .error _ => .undefined
  | .ok links =>
    let ns := optProp links "nearest_stations"
    if ns.truthy && ns.isArray then
      match ns with
      | .arr stations =>
        match (stations.take 3).mapM (fun s => do
            let n ← getProp s "name"
            let d ← getProp s "distance"
            let c ← getProp s "comment"
            let col ← getProp s "color"
            pure (JsVal.obj [("name", n), ("distance", d), ("line", c), ("color", col)])) with
        | .error _ => .undefined
        | .ok mapped =>
          let filtered := mapped.filter (fun s => (optProp s "name").truthy)
          if filtered.length = 0 then .undefined else .arr filtered
      | _ => .undefined
    else
      .undefined

/-- The attribute-groups loop: payment attributes from the payment group,
feature attributes from the rest, each name list filtered to truthy
values; a throw propagates out of the loop. -/
def attrLoop : List JsVal → List JsVal → List JsVal → Except Unit (List JsVal × List JsVal)
  | [], payments, feats => .ok (payments, feats)
  | g :: rest, payments, feats => do
    let gname ← getProp g "name"
    let gattrs ← getProp g "attributes"
    if jsStrictEq gname (.str "Способы оплаты") && gattrs.isArray then
      match gattrs with
      | .arr attrs => do
        let names ← attrs.mapM (fun a => getProp a "name")
        attrLoop rest (payments ++ names.filter JsVal.truthy) feats
      | _ => attrLoop rest payments feats
    else if gattrs.isArray then
      match gattrs with
      | .arr attrs => do
        let names ← attrs.mapM (fun a => getProp a "name")
        attrLoop rest payments (feats ++ names.filter JsVal.truthy)
      | _ => attrLoop rest payments feats
    else
      attrLoop rest payments feats

/-- The payment/feature group with its catch: on a throw both fields stay
undefined (the assignments happen after the loop). -/
def extractAttributesBlock (item : JsVal) : JsVal × JsVal :=
  match getProp item "attribute_groups" with
  | .error _ => (.undefined, .undefined)
  | .ok ag =>
    if ag.truthy && ag.isArray then
      match ag with
      | .arr groups =>
        match attrLoop groups [] [] with
        | .error _ => (.undefined, .undefined)
        | .ok (payments, feats) =>
          (if payments.length > 0 then .arr payments else .undefined,
           if feats.length > 0 then .arr feats else .undefined)
      | _ => (.undefined, .undefined)
    else
      (.undefined, .undefined)

/-- The parent-organization group: name (with `primary` fallback), id, and a
branch count kept only when of number type. -/
def extractOrgInfoBlock (item : JsVal) : JsVal × JsVal × JsVal :=
  match getProp item "org" with
  | .error _ => (.undefined, .undefined, .undefined)
  | .ok o =>
    if o.truthy then
      let bc := optProp o "branch_count"
      (jsOr (optProp o "name") (optProp o "primary"),
       optProp o "id",
       if bc.isNumber then bc else .undefined)
    else
      (.undefined, .undefined, .undefined)

/-- The photo group: a photo-album count summed with JS `+` semantics (reset
to undefined when strictly equal to 0), then the `flags.photos` marker; a
throw after the count was assigned keeps the count. -/
def extractPhotoBlock (item : JsVal) : JsVal × JsVal :=
  let pcOutcome : Except Unit JsVal := do
    let ec ← getProp item "external_content"
    if ec.truthy && ec.isArray then
      match ec with
      | .arr cs => do
        let flt ← cs.filterM (fun c => do
          let t ← getProp c "type"
          pure (jsStrictEq t (.str "photo_album")))
        let total ← flt.foldlM (fun sum c => do
          let cnt ← getProp c "count"
          pure (jsAdd sum (jsOr cnt (.num 0)))) (JsVal.num 0)
        pure (if jsStrictEq total (.num 0) then JsVal.undefined else total)
      | _ => pure JsVal.undefined
    else
      pure JsVal.undefined
  match pcOutcome with
  | .error _ => (.undefined, .undefined)
  | .ok photoCount =>
    match getProp item "flags" with
    | .error _ => (photoCount, .undefined)
    | .ok flags =>
      (photoCount, if (optProp flags "photos").truthy then .bool true else .undefined)

/-- The timestamps group. -/
def extractDatesBlock (item : JsVal) : JsVal × JsVal :=
  match getProp item "dates" with
  | .error _ => (.undefined, .undefined)
  | .ok d =>
    if d.truthy then (optProp d "created_at", optProp d "updated_at")
    else (.undefined, .undefined)

/-- The values the normalizer computed before building its return literal. -/
structure OrgFields where
  name : JsVal
  description : JsVal
  address : JsVal
  addressComment : JsVal
  postcode : JsVal
  city : JsVal
  district : JsVal
  region : JsVal
  country : JsVal
  timezone : JsVal
  phone : JsVal
  email : JsVal
  website : JsVal
  schedule : JsVal
  rating : JsVal
  reviewCount : JsVal
  rubrics : List JsVal
  itemType : JsVal
  coordinates : JsVal
  nearestMetro : JsVal
  paymentMethods : JsVal
  features : JsVal
  orgName : JsVal
  orgId : JsVal
  branchCount : JsVal
  photoCount : JsVal
  hasPhotos : JsVal
  createdAt : JsVal
  updatedAt : JsVal
deriving Repr

/-- The return object literal of `extractOrganization`, with its conditional
spreads in source order: truthiness conditions for most optional fields,
definedness conditions for the numeric/boolean ones, and the always-present
`name`, `address` and `rubrics`. -/
def mkRecord (f : OrgFields) : JsObjFields :=
  [("name", f.name)]
  ++ optField f.description.truthy "description" f.description
  ++ [("address", f.address)]
  ++ optField f.addressComment.truthy "addressComment" f.addressComment
  ++ optField f.postcode.truthy "postcode" f.postcode
  ++ optField f.city.truthy "city" f.city
  ++ optField f.district.truthy "district" f.district
  ++ optField f.region.truthy "region" f.region
  ++ optField f.country.truthy "country" f.country
  ++ optField f.timezone.truthy "timezone" f.timezone
  ++ optField f.phone.truthy "phone" f.phone
  ++ optField f.email.truthy "email" f.email
  ++ optField f.website.truthy "website" f.website
  ++ optField f.schedule.truthy "schedule" f.schedule
  ++ optField (!f.rating.isUndefined) "rating" f.rating
  ++ optField (!f.reviewCount.isUndefined) "reviewCount" f.reviewCount
  ++ [("rubrics", JsVal.arr f.rubrics)]
  ++ optField f.itemType.truthy "type" f.itemType
  ++ optField f.coordinates.truthy "coordinates" f.coordinates
  ++ optField f.nearestMetro.truthy "nearestMetro" f.nearestMetro
  ++ optField f.paymentMethods.truthy "paymentMethods" f.paymentMethods
  ++ optField f.features.truthy "features" f.features
  ++ optField f.orgName.truthy "orgName" f.orgName
  ++ optField f.orgId.truthy "orgId" f.orgId
  ++ optField (!f.branchCount.isUndefined) "branchCount" f.branchCount
  ++ optField (!f.photoCount.isUndefined) "photoCount" f.photoCount
  ++ optField (!f.hasPhotos.isUndefined) "hasPhotos" f.hasPhotos
  ++ optField f.createdAt.truthy "createdAt" f.createdAt
  ++ optField f.updatedAt.truthy "updatedAt" f.updatedAt

/-- The body of the outer try of `extractOrganization`: contact lookups, the
per-group blocks, and the literal accesses `item.timezone` / `item.type`
made while building the return object. Any propagated throw lands in the
top-level catch. -/
def extractOrgBody (item : JsVal) : Except Unit OrgFields := do
  let phone ← findContact item "phone"
  let email ← findContact item "email"
  let website ← findContact item "website"
  let nameDesc ← nameDescBlock item
  let addr := extractAddressBlock item
  let schedule := extractScheduleBlock item
  let ratingCount := extractReviewsBlock item
  let rubrics := extractRubricsBlock item
  let coordinates := extractCoordinatesBlock item
  let metro := extractMetroBlock item
  let attrs := extractAttributesBlock item
  let orgInfo := extractOrgInfoBlock item
  let photo := extractPhotoBlock item
  let dates := extractDatesBlock item
  let timezone ← getProp item "timezone"
  let itemType ← getProp item "type"
  pure {
    name := nameDesc.1
    description := nameDesc.2
    address := addr.address
    addressComment := addr.addressComment
    postcode := addr.postcode
    city := addr.city
    district := addr.district
    region := addr.region
    country := addr.country
    timezone := timezone
    phone := phone
    email := email
    website := website
    schedule := schedule
    rating := ratingCount.1
    reviewCount := ratingCount.2
    rubrics := rubrics
    itemType := itemType
    coordinates := coordinates
    nearestMetro := metro
    paymentMethods := attrs.1
    features := attrs.2
    orgName := orgInfo.1
    orgId := orgInfo.2.1
    branchCount := orgInfo.2.2
    photoCount := photo.1
    hasPhotos := photo.2
    createdAt := dates.1
    updatedAt := dates.2
  }

/-- The minimal record of the top-level catch:
`name: item?.name ?? 'Unknown', address: item?.address_name ?? '', rubrics: []`. -/
def minimalRecord (item : JsVal) : JsObjFields :=
  [("name", nullCo (optProp item "name") (.str "Unknown")),
   ("address", nullCo (optProp item "address_name") (.str "")),
   ("rubrics", JsVal.arr [])]

/-- `extractOrganization` from scripts/scrape-search.ts: the normal
normalization path, falling back to the minimal record when the body
throws; the function itself never throws. -/
def extractOrganization (item : JsVal) : JsObjFields :=
  match extractOrgBody item with
  | .ok f => mkRecord f
  | .error _ => minimalRecord item

/-- The minimal list-mode record built by `scrapeSearchResults`
(src/scraper/index.ts) from a search-result link. -/
def listModeRecord (nameVal firmId : JsVal) : JsObjFields :=
  [("name", nameVal), ("address", .str ""), ("rubrics", JsVal.arr []), ("orgId", firmId)]

/-! ## withRetry (src/scraper/helpers.ts)

The wrapper is modelled as a trace: the final result, the number of times
the operation was invoked, and the list of backoff sleeps in order. The
operation is attempt-indexed so that always-failing and sometimes-failing
operations can both be expressed; attempts count from 1 as in the source. -/

/-- The observable behaviour of one `withRetry` call. -/
structure RetryTrace (T : Type) where
  result : Option T
  attemptsMade : Nat
  sleeps : List Int
deriving Repr, DecidableEq

/-- The `for (let attempt = 1; attempt <= maxRetries; attempt++)` loop of
`withRetry`: on success return the value; on failure return null when the
attempt was the last, otherwise sleep `1000 * attempt` and continue; when
the loop ends without entering, return null. -/
def withRetryGo {T : Type} (op : Int → Except Unit T) (maxRetries : Int)
    (attempt : Int) : RetryTrace T :=
  if _h : attempt ≤ maxRetries then
    match op attempt with
    | .ok v => { result := some v, attemptsMade := 1, sleeps := [] }
    | .error _ =>
      if _h2 : attempt = maxRetries then
        { result := none, attemptsMade := 1, sleeps := [] }
      else
        let r := withRetryGo op maxRetries (attempt + 1)
        { result := r.result, attemptsMade := r.attemptsMade + 1,
          sleeps := 1000 * attempt :: r.sleeps }
  else
    { result := none, attemptsMade := 0, sleeps := [] }
termination_by (maxRetries + 1 - attempt).toNat
decreasing_by
  omega

/-- `withRetry` itself: the loop started at attempt 1. It returns an
`Option`, never an error: operation failures are swallowed. -/
def withRetry {T : Type} (op : Int → Except Unit T) (maxRetries : Int) : RetryTrace T :=
  withRetryGo op maxRetries 1

/-! ## scrapeReviews (src/scraper/reviews.ts)

The page interaction is abstracted into inputs: the bulk reviews embedded
in the initial client state, the visibility of the load-more trigger
before each click, and the DOM review list rendered after each click
(`domReviews k` is what `extractReviewsFromDOM` returns after the click
made with `clickCount = k`). The accumulation and loop logic is the
translation of the source. -/

/-- One extracted review; `id` is the sole deduplication key. -/
structure ReviewRec where
  id : String
  text : String
  rating : Int
deriving Repr, DecidableEq

/-- The accumulator of `scrapeReviews`: the `reviews` array and the
`reviewIds` set (modelled as the list of ids in insertion order). -/
structure ReviewsAcc where
  reviews : List ReviewRec
  reviewIds : List String
deriving Repr, DecidableEq

/-- One add loop over a batch: stop at the cap, skip already-seen ids, and
push new reviews while counting how many were added. -/
def addReviewsBatch (maxReviews : Nat) : List ReviewRec → ReviewsAcc → ReviewsAcc × Nat
  | [], acc => (acc, 0)
  | r :: rest, acc =>
    if acc.reviews.length ≥ maxReviews then
      (acc, 0)
    else if r.id ∈ acc.reviewIds then
      addReviewsBatch maxReviews rest acc
    else
      let acc2 : ReviewsAcc :=
        { reviews := acc.reviews ++ [r], reviewIds := acc.reviewIds ++ [r.id] }
      let res := addReviewsBatch maxReviews rest acc2
      (res.1, res.2 + 1)

/-- The DOM pagination loop: while the cap is not reached and fewer than
`maxClicks` clicks were made, check the load-more trigger, click, add the
currently rendered reviews, and stop when a click added nothing. Returns
the accumulator and the number of clicks performed. -/
def domPaginationLoop (maxReviews maxClicks : Nat) (visible : Nat → Bool)
    (domReviews : Nat → List ReviewRec) (clickCount : Nat) (acc : ReviewsAcc) :
    ReviewsAcc × Nat :=
  if _h : acc.reviews.length ≥ maxReviews ∨ clickCount ≥ maxClicks then
    (acc, clickCount)
  else if visible clickCount then
    let step := addReviewsBatch maxReviews (domReviews clickCount) acc
    if step.2 = 0 then
      (step.1, clickCount + 1)
    else
      domPaginationLoop maxReviews maxClicks visible domReviews (clickCount + 1) step.1
  else
    (acc, clickCount)
termination_by maxClicks - clickCount
decreasing_by
  omega

/-- `scrapeReviews` with its click count exposed: when navigation fails the
catch returns the (empty) accumulator; otherwise bulk reviews are added
first, the DOM loop runs only when the cap is not yet reached (with the
fixed safety limit of 20 clicks), and the result is truncated to the cap. -/
def scrapeReviewsTrace (maxReviews : Nat) (navOk : Bool)
    (initialReviews : List ReviewRec) (visible : Nat → Bool)
    (domReviews : Nat → List ReviewRec) : List ReviewRec × Nat :=
  if navOk then
    let acc1 := (addReviewsBatch maxReviews initialReviews ⟨[], []⟩).1
    if acc1.reviews.length < maxReviews then
      let res := domPaginationLoop maxReviews 20 visible domReviews 0 acc1
      (res.1.reviews.take maxReviews, res.2)
    else
      (acc1.reviews.take maxReviews, 0)
  else
    ([], 0)

/-- The review list returned by `scrapeReviews`. -/
def scrapeReviews (maxReviews : Nat) (navOk : Bool) (initialReviews : List ReviewRec)
    (visible : Nat → Bool) (domReviews : Nat → List ReviewRec) : List ReviewRec :=
  (scrapeReviewsTrace maxReviews navOk initialReviews visible domReviews).1

/-! ## validateOptions and run order (scripts/scrape.ts)

`main` builds the options, calls `validateOptions` (which exits the process
with code 1 on an invalid configuration), and only then calls
`scrapeSearchResults`, which opens the browser session as its first
action. TS string-or-absent option fields are modelled as `Option String`
with JS truthiness (absent and empty are both falsy). -/

/-- JS truthiness of a string-or-absent option field. -/
def optStrTruthy : Option String → Bool
  | none => false
  | some s => s ≠ ""

/-- The per-run configuration (`ScraperOptions`). -/
structure ScraperOptions where
  query : Option String
  orgId : Option String
  fromList : Option String
  scrapingMode : String
  delayMs : Int
  maxRecords : Nat
  maxRetries : Int
  headless : Bool
  maxReviewsPerOrg : Nat
deriving Repr, DecidableEq

/-- The reasons `validateOptions` exits, in source order. -/
inductive ValidationFailure where
  | noTarget
  | invalidMode
  | listModeWithTarget
  | fromListWithListMode
deriving Repr, DecidableEq

/-- `validateOptions`: `none` means the configuration is accepted;
`some f` means the process exits with code 1 printing the message for
`f`. -/
def validateOptions (o : ScraperOptions) : Option ValidationFailure :=
  if ¬ optStrTruthy o.query ∧ ¬ optStrTruthy o.orgId ∧ ¬ optStrTruthy o.fromList then
    some .noTarget
  else if o.scrapingMode ∉ (["list", "full", "full-with-reviews"] : List String) then
    some .invalidMode
  else if o.scrapingMode = "list" ∧ (optStrTruthy o.orgId ∨ optStrTruthy o.fromList) then
    some .listModeWithTarget
  else if optStrTruthy o.fromList ∧ o.scrapingMode = "list" then
    some .fromListWithListMode
  else
    none

/-- What a run of scripts/scrape.ts observably does for the claim:
either it exits early with a code, or it proceeds into
`scrapeSearchResults`; the flag records whether a browser session was
created at any point. -/
inductive RunOutcome where
  | exited (code : Nat) (browserOpened : Bool)
  | proceeded (browserOpened : Bool)
deriving Repr, DecidableEq

/-- The run order of `main`: `validateOptions` runs strictly before
`scrapeSearchResults`, and `scrapeSearchResults` opens the browser as its
first action, so an invalid configuration exits with code 1 before any
browser exists. -/
def runScrape (o : ScraperOptions) : RunOutcome :=
  match validateOptions o with
  | some _ => .exited 1 false
  | none => .proceeded true

/-! ## extractDataFromPage (early scripts/scrape-search.ts revision)

The page is abstracted into the captured API responses list and the
outcome of evaluating `window.initialState` (an `Except`, since the
in-page evaluation can throw). The API branch runs outside the try/catch;
the embedded-state branch runs inside it. -/

/-- An extraction result: the raw item and its source tag. -/
structure DataExtractionResult where
  item : JsVal
  source : String
deriving Repr

/-- The item the API branch computes from the first captured response:
`apiData.result?.items?.[0]` (the plain `.result` access throws on a
nullish response). -/
def apiItemOf (apiData : JsVal) : Except Unit JsVal := do
  let r ← getProp apiData "result"
  pure (optIndex (optProp r "items") 0)

/-- The same item for a non-nullish captured response, as a plain value. -/
def apiItemVal (apiData : JsVal) : JsVal :=
  optIndex (optProp (optProp apiData "result") "items") 0

/-- The try/catch around the embedded-state source: read
`initialState?.data?.entity?.profile`, take the first profile value and
its `data` payload when truthy; any throw is caught and yields nothing. -/
def stateYield (pageState : Except Unit JsVal) : Option DataExtractionResult :=
  let attempt : Except Unit (Option DataExtractionResult) := do
    let initialState ← pageState
    let profileData := optProp (optProp (optProp initialState "data") "entity") "profile"
    if profileData.truthy then
      match objectValues profileData with
      | p :: _ =>
        let item := optProp p "data"
        if item.truthy then
          pure (some { item := item, source := "initialState" })
        else
          pure none
      | [] => pure none
    else
      pure none
  match attempt with
  | .ok r => r
  | .error _ => none

/-- The API-branch item of `extractDataFromPage`: nothing was intercepted
when the captured list is empty (`item` stays `undefined`); otherwise the
first captured response is read (outside any try/catch). -/
def capturedItem : List JsVal → Except Unit JsVal
  | [] => .ok .undefined
  | apiData :: _ => apiItemOf apiData

/-- `extractDataFromPage`: the intercepted API response is tried first
(outside any try/catch), the embedded state second, and `none` is returned
when neither yields an item. -/
def extractDataFromPage (capturedResponses : List JsVal)
    (pageState : Except Unit JsVal) : Except Unit (Option DataExtractionResult) :=
  match capturedItem capturedResponses with
  | .error e => .error e
  | .ok apiItem =>
    if apiItem.truthy then
      .ok (some { item := apiItem, source := "api" })
    else
      .ok (stateYield pageState)

/-! ## Firm-target selection (scrapeSearchResults)

The search page yields anchor hrefs; the source takes the first 50, limits
the loop to `maxRecords`, and skips falsy (empty) hrefs inside the loop.
No deduplication is performed. -/

/-- The hrefs actually scraped in one search-query run:
`links.slice(0, 50)` capped by `totalToScrape = min(length, maxRecords)`,
with falsy hrefs skipped by the `if (!url) continue` guard. -/
def selectFirmTargets (links : List String) (maxRecords : Nat) : List String :=
  (((links.take 50).take maxRecords).filter (fun u => u ≠ ""))

/-! ## Spec-side definition for the address-components claim -/

/-- Stated from the spec (for comparison with the code): the city, district,
region or country field is the `name` of the FIRST entry of the components
list whose `type` matches the tag. -/
def specAddressFirstMatch (cs : List JsVal) (tag : String) : Option JsVal :=
  match cs.find? (fun c => jsStrictEq (optProp c "type") (.str tag)) with
  | some c => some (optProp c "name")
  | none => none

/-- The last matching component, which is what the source loop keeps
(matching entries later in the list overwrite earlier ones). -/
def lastAddressMatch (cs : List JsVal) (tag : String) : Option JsVal :=
  match cs.reverse.find? (fun c => jsStrictEq (optProp c "type") (.str tag)) with
  | some c => some (optProp c "name")
  | none => none

/-! ## Concrete data for scenarios and counterexamples -/

/-- Bulk-read batch of the review-cap scenario: 50 reviews with distinct ids. -/
def scenarioBulk : List ReviewRec :=
  (List.range 50).map (fun i => ⟨"state" ++ toString i, "", 5⟩)

/-- The DOM batch rendered after the first click: 5 duplicates of bulk ids
plus 10 new ids. -/
def scenarioDomBatch : List ReviewRec :=
  (List.range 5).map (fun i => ⟨"state" ++ toString i, "", 5⟩)
    ++ (List.range 10).map (fun i => ⟨"dom" ++ toString i, "", 4⟩)

/-- The load-more trigger stays visible in the scenario. -/
def scenarioVisible : Nat → Bool := fun _ => true

/-- The DOM content per click in the scenario: the batch after the first
click, nothing afterwards. -/
def scenarioDom : Nat → List ReviewRec := fun k => if k = 0 then scenarioDomBatch else []

/-- The expected scenario result: the 50 bulk reviews plus the 10 new DOM
reviews. -/
def scenarioFinal : List ReviewRec :=
  scenarioBulk ++ (List.range 10).map (fun i => ⟨"dom" ++ toString i, "", 4⟩)

/-- An address component of type city named A. -/
def componentCityA : JsVal :=
  JsVal.obj [("type", JsVal.str "city"), ("name", JsVal.str "A")]

/-- A second address component of type city named B. -/
def componentCityB : JsVal :=
  JsVal.obj [("type", JsVal.str "city"), ("name", JsVal.str "B")]

/-- A raw item whose address components carry two city entries. -/
def itemTwoCities : JsVal :=
  JsVal.obj [("address",
    JsVal.obj [("components", JsVal.arr [componentCityA, componentCityB])])]

/-! ## Helper lemmas -/

theorem lookupField_append (l1 l2 : JsObjFields) (key : String) :
    lookupField (l1 ++ l2) key =
      match lookupField l1 key with
      | some v => some v
      | none => lookupField l2 key := by
  induction l1 with
  | nil => simp [lookupField]
  | cons kv rest ih =>
    obtain ⟨k, v⟩ := kv
    by_cases h : k = key <;> simp [lookupField, h, ih]

theorem lookupField_cons_ne (k : String) (v : JsVal) (rest : JsObjFields) (key : String)
    (h : ¬ k = key) : lookupField ((k, v) :: rest) key = lookupField rest key := by
  simp [lookupField, h]

theorem lookupField_optField_append_ne (c : Bool) (k : String) (v : JsVal)
    (rest : JsObjFields) (key : String) (h : ¬ k = key) :
    lookupField (optField c k v ++ rest) key = lookupField rest key := by
  cases c <;> simp [optField, lookupField, h]

theorem lookupField_mkRecord_rubrics (f : OrgFields) :
    lookupField (mkRecord f) "rubrics" = some (JsVal.arr f.rubrics) := by
  simp only [mkRecord, List.append_assoc, List.cons_append, List.nil_append]
  rw [lookupField_cons_ne _ _ _ _ (by decide)]
  rw [lookupField_optField_append_ne _ _ _ _ _ (by decide)]
  rw [lookupField_cons_ne _ _ _ _ (by decide)]
  rw [lookupField_optField_append_ne _ _ _ _ _ (by decide)]
  rw [lookupField_optField_append_ne _ _ _ _ _ (by decide)]
  rw [lookupField_optField_append_ne _ _ _ _ _ (by decide)]
  rw [lookupField_optField_append_ne _ _ _ _ _ (by decide)]
  rw [lookupField_optField_append_ne _ _ _ _ _ (by decide)]
  rw [lookupField_optField_append_ne _ _ _ _ _ (by decide)]
  rw [lookupField_optField_append_ne _ _ _ _ _ (by decide)]
  rw [lookupField_optField_append_ne _ _ _ _ _ (by decide)]
  rw [lookupField_optField_append_ne _ _ _ _ _ (by decide)]
  rw [lookupField_optField_append_ne _ _ _ _ _ (by decide)]
  rw [lookupField_optField_append_ne _ _ _ _ _ (by decide)]
  rw [lookupField_optField_append_ne _ _ _ _ _ (by decide)]
  rw [lookupField_optField_append_ne _ _ _ _ _ (by decide)]
  simp [lookupField]

theorem jsStrictEq_str_iff (t : JsVal) (s : String) :
    jsStrictEq t (.str s) = true ↔ t = .str s := by
  cases t <;> simp [jsStrictEq]

theorem getProp_eq_optProp (c : JsVal) (k : String) (h : c.nullish = false) :
    getProp c k = .ok (optProp c k) := by
  cases c <;> simp_all [getProp, optProp, JsVal.nullish]

theorem lastAddressMatch_cons (c : JsVal) (rest : List JsVal) (tag : String) :
    lastAddressMatch (c :: rest) tag =
      match lastAddressMatch rest tag with
      | some n => some n
      | none =>
        if jsStrictEq (optProp c "type") (.str tag) then some (optProp c "name")
        else none := by
  simp only [lastAddressMatch, List.reverse_cons, List.find?_append]
  rcases hfind : rest.reverse.find? (fun x => jsStrictEq (optProp x "type") (.str tag))
      with _ | x
  · simp [hfind, List.find?, Option.orElse]
    rcases h : jsStrictEq (optProp c "type") (.str tag) <;> simp [h]
  · simp [hfind, Option.orElse]

theorem addrComponentStep_eval (st : AddrState) (c : JsVal) (h : c.nullish = false) :
    addrComponentStep st c = .ok (
      if jsStrictEq (optProp c "type") (.str "city") then
        { st with city := optProp c "name" }
      else if jsStrictEq (optProp c "type") (.str "district") then
        { st with district := optProp c "name" }
      else if jsStrictEq (optProp c "type") (.str "region") then
        { st with region := optProp c "name" }
      else if jsStrictEq (optProp c "type") (.str "country") then
        { st with country := optProp c "name" }
      else st) := by
  unfold addrComponentStep
  rw [getProp_eq_optProp c "type" h, getProp_eq_optProp c "name" h]
  by_cases h1 : jsStrictEq (optProp c "type") (.str "city") <;>
    by_cases h2 : jsStrictEq (optProp c "type") (.str "district") <;>
    by_cases h3 : jsStrictEq (optProp c "type") (.str "region") <;>
    by_cases h4 : jsStrictEq (optProp c "type") (.str "country") <;>
    simp [h1, h2, h3, h4]
theorem addReviewsBatch_wf (max : Nat) (rs : List ReviewRec) :
    ∀ acc : ReviewsAcc, acc.reviewIds = acc.reviews.map (·.id) →
      (addReviewsBatch max rs acc).1.reviewIds =
        (addReviewsBatch max rs acc).1.reviews.map (·.id) ∧
      ((acc.reviews.map (·.id)).Nodup →
        ((addReviewsBatch max rs acc).1.reviews.map (·.id)).Nodup) ∧
      (acc.reviews.length ≤ max → (addReviewsBatch max rs acc).1.reviews.length ≤ max) := by
  induction rs with
  | nil =>
    intro acc h
    simp [addReviewsBatch, h]
  | cons r rest ih =>
    intro acc h
    by_cases hlen : acc.reviews.length ≥ max
    · simp [addReviewsBatch, hlen, h]
    · by_cases hmem : r.id ∈ acc.reviewIds
      · simpa [addReviewsBatch, hlen, hmem] using ih acc h
      · have h2 : (ReviewsAcc.mk (acc.reviews ++ [r]) (acc.reviewIds ++ [r.id])).reviewIds =
            (ReviewsAcc.mk (acc.reviews ++ [r]) (acc.reviewIds ++ [r.id])).reviews.map (·.id) := by
          simp [h]
        obtain ⟨w1, w2, w3⟩ := ih _ h2
        refine ⟨?_, ?_, ?_⟩
        · simpa [addReviewsBatch, hlen, hmem] using w1
        · intro hnd
          have hnd2 : ((ReviewsAcc.mk (acc.reviews ++ [r])
              (acc.reviewIds ++ [r.id])).reviews.map (·.id)).Nodup := by
            simp only [List.map_append, List.map_cons, List.map_nil]
            rw [List.nodup_append]
            refine ⟨hnd, by simp, ?_⟩
            intro x hx
            simp only [List.mem_singleton]
            intro hx2
            exact hmem (by rw [h]; exact hx2 ▸ hx)
          simpa [addReviewsBatch, hlen, hmem] using w2 hnd2
        · intro _
          have hlen2 : (ReviewsAcc.mk (acc.reviews ++ [r])
              (acc.reviewIds ++ [r.id])).reviews.length ≤ max := by
            simp
            omega
          simpa [addReviewsBatch, hlen, hmem] using w3 hlen2

theorem domPaginationLoop_wf (max mc : Nat) (vis : Nat → Bool) (dom : Nat → List ReviewRec) :
    ∀ (fuel cc : Nat) (acc : ReviewsAcc), mc - cc ≤ fuel →
      acc.reviewIds = acc.reviews.map (·.id) →
      (acc.reviews.map (·.id)).Nodup →
      acc.reviews.length ≤ max →
      ((domPaginationLoop max mc vis dom cc acc).1.reviews.map (·.id)).Nodup ∧
      (domPaginationLoop max mc vis dom cc acc).1.reviews.length ≤ max := by
  intro fuel
  induction fuel with
  | zero =>
    intro cc acc hf h1 h2 h3
    rw [domPaginationLoop]
    have : cc ≥ mc := by omega
    simp [this]
    exact ⟨h2, h3⟩
  | succ fuel ih =>
    intro cc acc hf h1 h2 h3
    rw [domPaginationLoop]
    by_cases hstop : acc.reviews.length ≥ max ∨ cc ≥ mc
    · simp [hstop]
      exact ⟨h2, h3⟩
    · simp only [hstop, dite_false, reduceDIte]
      by_cases hvis : vis cc
      · obtain ⟨w1, w2, w3⟩ := addReviewsBatch_wf max (dom cc) acc h1
        by_cases hzero : (addReviewsBatch max (dom cc) acc).2 = 0
        · simp [hvis, hzero]
          exact ⟨w2 h2, w3 h3⟩
        · simp only [hvis, hzero, if_true, if_false, reduceIte, ite_false]
          exact ih (cc + 1) (addReviewsBatch max (dom cc) acc).1 (by omega) w1 (w2 h2) (w3 h3)
      · simp [hvis]
        exact ⟨h2, h3⟩

theorem addReviewsBatch_mono (max : Nat) (rs : List ReviewRec) :
    ∀ (acc : ReviewsAcc) (x : String), x ∈ acc.reviewIds →
      x ∈ (addReviewsBatch max rs acc).1.reviewIds := by
  induction rs with
  | nil => intro acc x hx; simpa [addReviewsBatch] using hx
  | cons r rest ih =>
    intro acc x hx
    by_cases hlen : acc.reviews.length ≥ max
    · simpa [addReviewsBatch, hlen] using hx
    · by_cases hmem : r.id ∈ acc.reviewIds
      · simpa [addReviewsBatch, hlen, hmem] using ih acc x hx
      · have : x ∈ (ReviewsAcc.mk (acc.reviews ++ [r]) (acc.reviewIds ++ [r.id])).reviewIds := by
          simp [hx]
        simpa [addReviewsBatch, hlen, hmem] using ih _ x this

theorem addReviewsBatch_allmem (max : Nat) (rs : List ReviewRec) :
    ∀ acc : ReviewsAcc, (∀ r ∈ rs, r.id ∈ acc.reviewIds) →
      addReviewsBatch max rs acc = (acc, 0) := by
  induction rs with
  | nil => intro acc _; simp [addReviewsBatch]
  | cons r rest ih =>
    intro acc h
    by_cases hlen : acc.reviews.length ≥ max
    · simp [addReviewsBatch, hlen]
    · have hmem : r.id ∈ acc.reviewIds := h r (by simp)
      have hrest : ∀ x ∈ rest, x.id ∈ acc.reviewIds := fun x hx => h x (by simp [hx])
      simp [addReviewsBatch, hlen, hmem, ih acc hrest]

theorem addReviewsBatch_covers (max : Nat) (rs : List ReviewRec) :
    ∀ acc : ReviewsAcc,
      (addReviewsBatch max rs acc).1.reviews.length ≥ max ∨
      ∀ r ∈ rs, r.id ∈ (addReviewsBatch max rs acc).1.reviewIds := by
  induction rs with
  | nil => intro acc; right; simp
  | cons r rest ih =>
    intro acc
    by_cases hlen : acc.reviews.length ≥ max
    · left
      simp [addReviewsBatch, hlen]
    · by_cases hmem : r.id ∈ acc.reviewIds
      · rcases ih acc with h | h
        · left; simpa [addReviewsBatch, hlen, hmem] using h
        · right
          intro x hx
          rcases List.mem_cons.mp hx with hh | hh
          · subst hh
            simpa [addReviewsBatch, hlen, hmem] using
              addReviewsBatch_mono max rest acc x.id hmem
          · simpa [addReviewsBatch, hlen, hmem] using h x hh
      · rcases ih (ReviewsAcc.mk (acc.reviews ++ [r]) (acc.reviewIds ++ [r.id])) with h | h
        · left; simpa [addReviewsBatch, hlen, hmem] using h
        · right
          intro x hx
          rcases List.mem_cons.mp hx with hh | hh
          · have hmem2 : r.id ∈ (ReviewsAcc.mk (acc.reviews ++ [r])
                (acc.reviewIds ++ [r.id])).reviewIds := by simp
            rw [hh]
            simpa [addReviewsBatch, hlen, hmem] using
              addReviewsBatch_mono max rest _ r.id hmem2
          · simpa [addReviewsBatch, hlen, hmem] using h x hh

theorem domPaginationLoop_clicks_le (max mc : Nat) (vis : Nat → Bool)
    (dom : Nat → List ReviewRec) :
    ∀ (fuel cc : Nat) (acc : ReviewsAcc), mc - cc ≤ fuel → cc ≤ mc →
      (domPaginationLoop max mc vis dom cc acc).2 ≤ mc := by
  intro fuel
  induction fuel with
  | zero =>
    intro cc acc hf hcc
    rw [domPaginationLoop]
    have : cc ≥ mc := by omega
    simp [this, hcc]
  | succ fuel ih =>
    intro cc acc hf hcc
    rw [domPaginationLoop]
    by_cases hstop : acc.reviews.length ≥ max ∨ cc ≥ mc
    · simp [hstop, hcc]
    · have hlt : cc < mc := by omega
      simp only [hstop, reduceDIte]
      by_cases hvis : vis cc
      · by_cases hzero : (addReviewsBatch max (dom cc) acc).2 = 0
        · simp [hvis, hzero]
          omega
        · simp only [hvis, hzero, if_true, if_false, reduceIte, ite_false]
          exact ih (cc + 1) _ (by omega) (by omega)
      · simp [hvis]
        omega

theorem domPaginationLoop_stall (max : Nat) (vis : Nat → Bool)
    (dom : Nat → List ReviewRec) (baseIds : List String) (N : Nat)
    (H : ∀ k, N ≤ k → ∀ r ∈ dom k, r.id ∈ baseIds ∨ ∃ j < N, r.id ∈ (dom j).map (·.id)) :
    ∀ (fuel cc : Nat) (acc : ReviewsAcc), 20 - cc ≤ fuel → cc ≤ N →
      (∀ x, (x ∈ baseIds ∨ ∃ j < cc, x ∈ (dom j).map (·.id)) → x ∈ acc.reviewIds) →
      (domPaginationLoop max 20 vis dom cc acc).2 ≤ N + 1 := by
  intro fuel
  induction fuel with
  | zero =>
    intro cc acc hf hcc hsub
    rw [domPaginationLoop]
    have : cc ≥ 20 := by omega
    simp [this]
    omega
  | succ fuel ih =>
    intro cc acc hf hcc hsub
    rw [domPaginationLoop]
    by_cases hstop : acc.reviews.length ≥ max ∨ cc ≥ 20
    · simp [hstop]
      omega
    · simp only [hstop, reduceDIte]
      by_cases hvis : vis cc
      · rcases Nat.lt_or_ge cc N with hcN | hcN
        · -- before the stall point: either the click added nothing, the cap
          -- was hit, or we recurse with the invariant extended by dom cc
          by_cases hzero : (addReviewsBatch max (dom cc) acc).2 = 0
          · simp [hvis, hzero]
            omega
          · simp only [hvis, hzero, if_true, if_false, reduceIte, ite_false]
            by_cases hcap : (addReviewsBatch max (dom cc) acc).1.reviews.length ≥ max
            · rw [domPaginationLoop]
              simp [hcap]
              omega
            · rcases addReviewsBatch_covers max (dom cc) acc with h | h
              · exact absurd h hcap
              · refine ih (cc + 1) _ (by omega) (by omega) ?_
                intro x hx
                rcases hx with hx | ⟨j, hj, hx⟩
                · exact addReviewsBatch_mono max (dom cc) acc x (hsub x (Or.inl hx))
                · rcases Nat.lt_or_ge j cc with hjc | hjc
                  · exact addReviewsBatch_mono max (dom cc) acc x
                      (hsub x (Or.inr ⟨j, hjc, hx⟩))
                  · have hjeq : j = cc := by omega
                    subst hjeq
                    rcases List.mem_map.mp hx with ⟨r, hr, hrid⟩
                    exact hrid ▸ h r hr
        · -- at the stall point the click adds nothing: every rendered review
          -- id is already in the accumulator
          have hceq : cc = N := by omega
          have hall : ∀ r ∈ dom cc, r.id ∈ acc.reviewIds := by
            intro r hr
            rcases H cc (by omega) r hr with hb | ⟨j, hj, hx⟩
            · exact hsub r.id (Or.inl hb)
            · exact hsub r.id (Or.inr ⟨j, by omega, hx⟩)
          rw [addReviewsBatch_allmem max (dom cc) acc hall]
          simp [hvis]
          omega
      · simp [hvis]
        omega

theorem scrapeReviews_scenario_value :
    scrapeReviews 60 true scenarioBulk scenarioVisible scenarioDom = scenarioFinal := by
  unfold scrapeReviews scrapeReviewsTrace
  simp only [if_true]
  rw [if_pos (by decide)]
  rw [domPaginationLoop]
  rw [dif_neg (by decide)]
  rw [if_pos (by decide)]
  rw [if_neg (by decide)]
  rw [domPaginationLoop]
  rw [dif_pos (by decide)]
  decide

theorem apiItemOf_eq (d : JsVal) (h : d.nullish = false) :
    apiItemOf d = .ok (apiItemVal d) := by
  unfold apiItemOf apiItemVal
  rw [getProp_eq_optProp d "result" h]
  rfl

theorem withRetryGo_neg {T : Type} (op : Int → Except Unit T) (m a : Int) (h : ¬ a ≤ m) :
    withRetryGo op m a = { result := none, attemptsMade := 0, sleeps := [] } := by
  rw [withRetryGo]
  simp [h]

theorem withRetryGo_fail {T : Type} (op : Int → Except Unit T)
    (hf : ∀ n, op n = .error ()) :
    ∀ (k : Nat) (m a : Int), a ≤ m → (m - a).toNat = k →
      withRetryGo op m a =
        { result := none, attemptsMade := k + 1,
          sleeps := (List.range k).map (fun i : Nat => 1000 * (a + (i : Int))) } := by
  intro k
  induction k with
  | zero =>
    intro m a ha hk
    have : a = m := by omega
    rw [withRetryGo]
    simp [ha, hf, this]
  | succ k ih =>
    intro m a ha hk
    have hne : ¬ a = m := by omega
    rw [withRetryGo]
    simp only [ha, dif_pos, hf, hne, dif_neg]
    rw [ih m (a + 1) (by omega) (by omega)]
    rw [dif_neg not_false]
    simp only [List.range_succ_eq_map, List.map_cons, List.map_map, RetryTrace.mk.injEq,
      true_and]
    congr 1
    · simp
    · apply List.map_congr_left
      intro i _
      simp only [Function.comp_apply]
      omega

/-! ## Claim theorems -/

/-- Claim C1: for any sequence of bulk-read and DOM-paginated review batches
with overlapping ids, the collection returned by scrapeReviews contains each
review id at most once and its length never exceeds the caller-supplied cap;
in the scenario with cap 60, 50 unique bulk-read ids and one DOM click adding
15 reviews of which 5 duplicate existing ids, the result has exactly 60
reviews, all ids unique. -/
theorem scrapeReviews_dedup_and_cap :
    (∀ (maxReviews : Nat) (navOk : Bool) (initialReviews : List ReviewRec)
        (visible : Nat → Bool) (domReviews : Nat → List ReviewRec),
      ((scrapeReviews maxReviews navOk initialReviews visible domReviews).map (·.id)).Nodup ∧
      (scrapeReviews maxReviews navOk initialReviews visible domReviews).length ≤ maxReviews) ∧
    ((scrapeReviews 60 true scenarioBulk scenarioVisible scenarioDom).length = 60 ∧
      ((scrapeReviews 60 true scenarioBulk scenarioVisible scenarioDom).map (·.id)).Nodup) := by
  constructor
  · intro maxR navOk init vis dom
    unfold scrapeReviews scrapeReviewsTrace
    cases navOk with
    | false => simp
    | true =>
      simp only [if_true]
      obtain ⟨w1, w2, w3⟩ := addReviewsBatch_wf maxR init ⟨[], []⟩ rfl
      have hn0 : ((ReviewsAcc.mk [] []).reviews.map (·.id)).Nodup := by simp
      have hl0 : (ReviewsAcc.mk [] []).reviews.length ≤ maxR := by simp
      by_cases hcap : (addReviewsBatch maxR init ⟨[], []⟩).1.reviews.length < maxR
      · rw [if_pos hcap]
        obtain ⟨d1, d2⟩ := domPaginationLoop_wf maxR 20 vis dom 20 0 _
          (by omega) w1 (w2 hn0) (w3 hl0)
        constructor
        · rw [List.map_take]
          exact d1.sublist (List.take_sublist _ _)
        · simp
      · rw [if_neg hcap]
        constructor
        · rw [List.map_take]
          exact (w2 hn0).sublist (List.take_sublist _ _)
        · simp
  · rw [scrapeReviews_scenario_value]
    exact ⟨by decide, by decide⟩

/-- Claim C2: for every operation that fails on every invocation, withRetry
invokes the operation exactly maxRetries times, sleeps attempt times the
base delay of 1000 ms between consecutive attempts (linear backoff), and
returns an absent result; the trace never carries an error, so the
operation error is not raised to the caller. -/
theorem withRetry_always_fail_bound {T : Type} (op : Int → Except Unit T) (m : Int)
    (hf : ∀ n, op n = .error ()) (hm : 0 ≤ m) :
    withRetry op m =
      { result := none, attemptsMade := m.toNat,
        sleeps := (List.range (m.toNat - 1)).map (fun i : Nat => 1000 * (1 + (i : Int))) } := by
  rcases lt_or_ge m 1 with h1 | h1
  · have hm0 : m = 0 := by omega
    subst hm0
    rw [withRetry, withRetryGo_neg op 0 1 (by omega)]
    simp
  · rw [withRetry, withRetryGo_fail op hf (m - 1).toNat m 1 (by omega) (by omega)]
    have ha : (m - 1).toNat + 1 = m.toNat := by omega
    have hb : (m - 1).toNat = m.toNat - 1 := by omega
    rw [ha, hb]

/-- Witness for claim C2: an always-failing operation with maxRetries 3 is
invoked exactly 3 times, with sleeps of 1000 ms and 2000 ms in between, and
the result is absent. -/
theorem withRetry_always_fail_bound_witness :
    withRetry (fun _ => Except.error () : Int → Except Unit Unit) 3 =
      { result := none, attemptsMade := 3, sleeps := [1000, 2000] } := by
  have h := withRetry_always_fail_bound (fun _ => Except.error () : Int → Except Unit Unit) 3
    (fun _ => rfl) (by norm_num)
  simpa using h

/-- Claim C3: when the body of extractOrganization throws at the top level,
the function returns the minimal record built from the rawest fields
(name from item.name with an Unknown fallback, address from
item.address_name with an empty fallback, empty rubrics) instead of
propagating the error, and the raw item with only a name field yields the
three-field record with empty address and empty rubrics; the function is
total, so no error escapes. -/
theorem extractOrganization_top_level_fallback :
    (∀ item : JsVal, (extractOrgBody item).isOk = false →
      extractOrganization item = minimalRecord item) ∧
    extractOrganization (JsVal.obj [("name", JsVal.str "Minimal")]) =
      [("name", JsVal.str "Minimal"), ("address", JsVal.str ""),
       ("rubrics", JsVal.arr [])] := by
  constructor
  · intro item h
    rcases hbody : extractOrgBody item with e | f
    · simp [extractOrganization, hbody]
    · rw [hbody] at h
      simp [Except.isOk, Except.toBool] at h
  · rfl

/-- Witness for claim C3: normalizing a null item throws at the top level
(the contact lookup dereferences a nullish base) and produces the minimal
record rather than an error. -/
theorem extractOrganization_top_level_fallback_witness :
    extractOrganization JsVal.null = minimalRecord JsVal.null :=
  extractOrganization_top_level_fallback.1 JsVal.null rfl

/-- Claim C4: the DOM pagination loop of scrapeReviews performs at most 20
clicks on any input; when the feed stops producing new reviews after N
clicks (every review rendered at click index at least N carries an id
already rendered among the bulk reviews or an earlier click), the run makes
at most N plus 1 click attempts; and the loop stops immediately, with no
further click, as soon as the cap is reached or the load-more trigger is
not visible. -/
theorem scrapeReviews_pagination_termination :
    (∀ (maxR : Nat) (navOk : Bool) (init : List ReviewRec) (vis : Nat → Bool)
        (dom : Nat → List ReviewRec),
      (scrapeReviewsTrace maxR navOk init vis dom).2 ≤ 20) ∧
    (∀ (maxR : Nat) (init : List ReviewRec) (vis : Nat → Bool)
        (dom : Nat → List ReviewRec) (N : Nat),
      (∀ k, N ≤ k → ∀ r ∈ dom k,
          r.id ∈ init.map (·.id) ∨ ∃ j < N, r.id ∈ (dom j).map (·.id)) →
      (scrapeReviewsTrace maxR true init vis dom).2 ≤ N + 1) ∧
    (∀ (maxR : Nat) (vis : Nat → Bool) (dom : Nat → List ReviewRec) (cc : Nat)
        (acc : ReviewsAcc),
      acc.reviews.length ≥ maxR →
      domPaginationLoop maxR 20 vis dom cc acc = (acc, cc)) ∧
    (∀ (maxR : Nat) (vis : Nat → Bool) (dom : Nat → List ReviewRec) (cc : Nat)
        (acc : ReviewsAcc),
      acc.reviews.length < maxR → cc < 20 → vis cc = false →
      domPaginationLoop maxR 20 vis dom cc acc = (acc, cc)) := by
  refine ⟨?_, ?_, ?_, ?_⟩
  · intro maxR navOk init vis dom
    unfold scrapeReviewsTrace
    cases navOk with
    | false => simp
    | true =>
      simp only [if_true]
      by_cases hcap : (addReviewsBatch maxR init ⟨[], []⟩).1.reviews.length < maxR
      · rw [if_pos hcap]
        exact domPaginationLoop_clicks_le maxR 20 vis dom 20 0 _ (by omega) (by omega)
      · rw [if_neg hcap]
        omega
  · intro maxR init vis dom N H
    unfold scrapeReviewsTrace
    simp only [if_true]
    by_cases hcap : (addReviewsBatch maxR init ⟨[], []⟩).1.reviews.length < maxR
    · rw [if_pos hcap]
      refine domPaginationLoop_stall maxR vis dom (init.map (·.id)) N H 20 0 _
        (by omega) (by omega) ?_
      intro x hx
      rcases hx with hx | ⟨j, hj, _⟩
      · rcases addReviewsBatch_covers maxR init ⟨[], []⟩ with h | h
        · omega
        · rcases List.mem_map.mp hx with ⟨r, hr, hrid⟩
          exact hrid ▸ h r hr
      · omega
    · rw [if_neg hcap]
      omega
  · intro maxR vis dom cc acc h
    rw [domPaginationLoop]
    simp [h]
  · intro maxR vis dom cc acc h1 h2 h3
    rw [domPaginationLoop]
    have : ¬ (acc.reviews.length ≥ maxR ∨ cc ≥ 20) := by omega
    simp [this, h3]

/-- Witness for claim C4: a feed that renders one review at the first click
and nothing afterwards stalls after 1 click, so the run makes at most 2
click attempts; a full accumulator stops the loop with no click; an
invisible trigger stops the loop with no click. -/
theorem scrapeReviews_pagination_termination_witness :
    (scrapeReviewsTrace 10 true [⟨"a", "", 5⟩] (fun _ => true)
        (fun k => if k = 0 then [⟨"x", "", 4⟩] else [])).2 ≤ 2 ∧
    domPaginationLoop 1 20 (fun _ => true) (fun _ => []) 3 ⟨[⟨"a", "", 5⟩], ["a"]⟩ =
      (⟨[⟨"a", "", 5⟩], ["a"]⟩, 3) ∧
    domPaginationLoop 5 20 (fun _ => false) (fun _ => []) 2 ⟨[⟨"a", "", 5⟩], ["a"]⟩ =
      (⟨[⟨"a", "", 5⟩], ["a"]⟩, 2) := by
  refine ⟨?_, ?_, ?_⟩
  · refine scrapeReviews_pagination_termination.2.1 10 [⟨"a", "", 5⟩] (fun _ => true)
      (fun k => if k = 0 then [⟨"x", "", 4⟩] else []) 1 ?_
    intro k hk r hr
    have hne : ¬ k = 0 := by omega
    simp [hne] at hr
  · exact scrapeReviews_pagination_termination.2.2.1 1 (fun _ => true) (fun _ => [])
      3 ⟨[⟨"a", "", 5⟩], ["a"]⟩ (by simp)
  · exact scrapeReviews_pagination_termination.2.2.2 5 (fun _ => false) (fun _ => [])
      2 ⟨[⟨"a", "", 5⟩], ["a"]⟩ (by simp) (by omega) rfl

/-- Claim C5: every record produced by the pipeline carries a rubrics field
holding an array: the normal normalization path and the top-level fallback
(both inside extractOrganization) and the list-mode minimal record. -/
theorem organizationRecord_rubrics_always_array :
    (∀ item : JsVal, ∃ rs : List JsVal,
      lookupField (extractOrganization item) "rubrics" = some (JsVal.arr rs)) ∧
    (∀ nameVal firmId : JsVal,
      lookupField (listModeRecord nameVal firmId) "rubrics" = some (JsVal.arr [])) := by
  constructor
  · intro item
    rcases hbody : extractOrgBody item with e | f
    · exact ⟨[], by simp [extractOrganization, hbody, minimalRecord, lookupField]⟩
    · exact ⟨f.rubrics, by simp [extractOrganization, hbody, lookupField_mkRecord_rubrics]⟩
  · intro nameVal firmId
    rfl

/-- Counterexample to claim C6 as stated: with two city components named A
then B, the normalizer records B, the name of the last matching component,
while the first matching entry is named A. -/
theorem extractOrganization_first_match_refuted :
    lookupField (extractOrganization itemTwoCities) "city" = some (JsVal.str "B") ∧
    specAddressFirstMatch [componentCityA, componentCityB] "city" = some (JsVal.str "A") ∧
    JsVal.str "B" ≠ JsVal.str "A" := by
  refine ⟨rfl, rfl, ?_⟩
  intro h
  simp at h

/-- Claim C6 (amended): during normalization each of city, district, region
and country is taken from the LAST entry of the address components list
whose type tag matches (later matches overwrite earlier ones), regardless
of where matching entries sit in the list; when each tag occurs at most
once this coincides with the unique matching entry. Stated for component
lists whose entries are non-nullish (a nullish entry aborts the loop). -/
theorem runAddrComponents_last_match (cs : List JsVal) :
    ∀ st : AddrState, (∀ c ∈ cs, c.nullish = false) →
      (runAddrComponents cs st).city = ((lastAddressMatch cs "city").getD st.city) ∧
      (runAddrComponents cs st).district = ((lastAddressMatch cs "district").getD st.district) ∧
      (runAddrComponents cs st).region = ((lastAddressMatch cs "region").getD st.region) ∧
      (runAddrComponents cs st).country = ((lastAddressMatch cs "country").getD st.country) := by
  induction cs with
  | nil =>
    intro st _
    simp [runAddrComponents, lastAddressMatch, List.find?]
  | cons c rest ih =>
    intro st h
    have hc : c.nullish = false := h c (by simp)
    have hrest : ∀ x ∈ rest, x.nullish = false := fun x hx => h x (by simp [hx])
    have hstep := addrComponentStep_eval st c hc
    simp only [runAddrComponents, hstep, lastAddressMatch_cons c rest]
    by_cases h1 : jsStrictEq (optProp c "type") (.str "city")
    · have ht := (jsStrictEq_str_iff _ _).mp h1
      obtain ⟨e1, e2, e3, e4⟩ := ih { st with city := optProp c "name" } hrest
      simp only [ht, jsStrictEq, String.reduceBEq, if_true, if_false,
        Bool.false_eq_true, reduceIte]
      rw [e1, e2, e3, e4]
      rcases lastAddressMatch rest "city" with _ | y1 <;>
        rcases lastAddressMatch rest "district" with _ | y2 <;>
        rcases lastAddressMatch rest "region" with _ | y3 <;>
        rcases lastAddressMatch rest "country" with _ | y4 <;>
        simp
    · by_cases h2 : jsStrictEq (optProp c "type") (.str "district")
      · have ht := (jsStrictEq_str_iff _ _).mp h2
        obtain ⟨e1, e2, e3, e4⟩ := ih { st with district := optProp c "name" } hrest
        simp only [ht, jsStrictEq, String.reduceBEq, if_true, if_false,
          Bool.false_eq_true, reduceIte]
        rw [e1, e2, e3, e4]
        rcases lastAddressMatch rest "city" with _ | y1 <;>
          rcases lastAddressMatch rest "district" with _ | y2 <;>
          rcases lastAddressMatch rest "region" with _ | y3 <;>
          rcases lastAddressMatch rest "country" with _ | y4 <;>
          simp
      · by_cases h3 : jsStrictEq (optProp c "type") (.str "region")
        · have ht := (jsStrictEq_str_iff _ _).mp h3
          obtain ⟨e1, e2, e3, e4⟩ := ih { st with region := optProp c "name" } hrest
          simp only [ht, jsStrictEq, String.reduceBEq, if_true, if_false,
            Bool.false_eq_true, reduceIte]
          rw [e1, e2, e3, e4]
          rcases lastAddressMatch rest "city" with _ | y1 <;>
            rcases lastAddressMatch rest "district" with _ | y2 <;>
            rcases lastAddressMatch rest "region" with _ | y3 <;>
            rcases lastAddressMatch rest "country" with _ | y4 <;>
            simp
        · by_cases h4 : jsStrictEq (optProp c "type") (.str "country")
          · have ht := (jsStrictEq_str_iff _ _).mp h4
            obtain ⟨e1, e2, e3, e4⟩ := ih { st with country := optProp c "name" } hrest
            simp only [ht, jsStrictEq, String.reduceBEq, if_true, if_false,
              Bool.false_eq_true, reduceIte]
            rw [e1, e2, e3, e4]
            rcases lastAddressMatch rest "city" with _ | y1 <;>
              rcases lastAddressMatch rest "district" with _ | y2 <;>
              rcases lastAddressMatch rest "region" with _ | y3 <;>
              rcases lastAddressMatch rest "country" with _ | y4 <;>
              simp
          · obtain ⟨e1, e2, e3, e4⟩ := ih st hrest
            simp only [if_neg h1, if_neg h2, if_neg h3, if_neg h4]
            rw [e1, e2, e3, e4]
            rcases lastAddressMatch rest "city" with _ | y1 <;>
              rcases lastAddressMatch rest "district" with _ | y2 <;>
              rcases lastAddressMatch rest "region" with _ | y3 <;>
              rcases lastAddressMatch rest "country" with _ | y4 <;>
              simp
/-- Witness for claim C6 (amended): on the two-city component list the loop
keeps the name of the last city entry. -/
theorem runAddrComponents_last_match_witness :
    (runAddrComponents [componentCityA, componentCityB] {}).city =
      ((lastAddressMatch [componentCityA, componentCityB] "city").getD
        (AddrState.mk (.str "") .undefined .undefined .undefined .undefined .undefined .undefined).city) := by
  have h := runAddrComponents_last_match [componentCityA, componentCityB] {} (by
    intro c hc
    fin_cases hc <;> rfl)
  exact h.1

/-- Counterexample to claim C7 as stated: a search page listing the same
firm href twice yields that href twice among the scraped targets, so the
target list is not deduplicated by href. -/
theorem selectFirmTargets_dedup_refuted :
    selectFirmTargets ["https://2gis.ru/moscow/firm/1", "https://2gis.ru/moscow/firm/1"] 50 =
      ["https://2gis.ru/moscow/firm/1", "https://2gis.ru/moscow/firm/1"] ∧
    ¬ (selectFirmTargets ["https://2gis.ru/moscow/firm/1",
        "https://2gis.ru/moscow/firm/1"] 50).Nodup :=
  ⟨rfl, by decide⟩

/-- Claim C7 (amended): the firm-page targets taken from the live search
results page are capped at 50 links and further limited to maxRecords, and
they are drawn from the page links in order (empty hrefs skipped), but no
deduplication by href is performed: an href occurring twice within the cap
is scraped once per occurrence. -/
theorem selectFirmTargets_capped_sublist :
    ∀ (links : List String) (maxRecords : Nat),
      (selectFirmTargets links maxRecords).length ≤ min 50 maxRecords ∧
      (selectFirmTargets links maxRecords).Sublist links := by
  intro links m
  constructor
  · unfold selectFirmTargets
    have h1 := List.length_filter_le (fun u => u ≠ "") ((links.take 50).take m)
    have h2 : ((links.take 50).take m).length ≤ min 50 m := by
      simp only [List.length_take]
      omega
    omega
  · unfold selectFirmTargets
    exact ((List.filter_sublist _).trans (List.take_sublist _ _)).trans
      (List.take_sublist _ _)

/-- Claim C8: a configuration with no query, no identifier and no list, or
with an unrecognized mode name, makes the run exit with code 1 before any
browser session is created (the exit code is non-zero). -/
theorem invalid_config_fails_fast :
    ∀ o : ScraperOptions,
      ((¬ optStrTruthy o.query ∧ ¬ optStrTruthy o.orgId ∧ ¬ optStrTruthy o.fromList) ∨
        o.scrapingMode ∉ (["list", "full", "full-with-reviews"] : List String)) →
      runScrape o = .exited 1 false ∧ (1 : Nat) ≠ 0 := by
  intro o h
  refine ⟨?_, by omega⟩
  have hv : validateOptions o ≠ none := by
    unfold validateOptions
    rcases h with ⟨h1, h2, h3⟩ | h4
    · simp [h1, h2, h3]
    · by_cases h1 : ¬ optStrTruthy o.query ∧ ¬ optStrTruthy o.orgId ∧ ¬ optStrTruthy o.fromList
      · simp [h1]
      · simp only [h4, not_false_eq_true, if_true, reduceIte]
        split <;> simp
  unfold runScrape
  cases hval : validateOptions o with
  | none => exact absurd hval hv
  | some f => simp

/-- Witness for claim C8: a configuration with all three targets absent and
a valid mode exits with code 1 and no browser. -/
theorem invalid_config_fails_fast_witness :
    runScrape ⟨none, none, none, "full", 0, 0, 0, true, 0⟩ =
      RunOutcome.exited 1 false :=
  (invalid_config_fails_fast ⟨none, none, none, "full", 0, 0, 0, true, 0⟩
    (Or.inl (by simp [optStrTruthy]))).1

/-- Counterexample to claim C9 as stated: when the single captured response
is the JSON value null, neither source yields data, yet extractDataFromPage
throws (the plain property access on the nullish response is outside the
try/catch) instead of returning null. -/
theorem extractDataFromPage_no_throw_refuted :
    extractDataFromPage [JsVal.null] (.ok JsVal.undefined) = .error () := rfl

/-- Claim C9 (amended): page-state extraction tries sources in priority
order with first match winning: a truthy item from the first captured API
response is returned with the api source tag regardless of the embedded
state; with no captured response the embedded-state try/catch decides the
result; and when neither source yields data the function returns null (not
an error), provided any captured first response is non-nullish (a nullish
one makes the API branch throw). -/
theorem extractDataFromPage_priority :
    (∀ (d : JsVal) (rest : List JsVal) (ps : Except Unit JsVal),
      d.nullish = false → (apiItemVal d).truthy = true →
      extractDataFromPage (d :: rest) ps =
        .ok (some { item := apiItemVal d, source := "api" })) ∧
    (∀ ps : Except Unit JsVal, extractDataFromPage [] ps = .ok (stateYield ps)) ∧
    (∀ (cr : List JsVal) (ps : Except Unit JsVal),
      (cr = [] ∨ ∃ d rest, cr = d :: rest ∧ d.nullish = false ∧
        (apiItemVal d).truthy = false) →
      stateYield ps = none →
      extractDataFromPage cr ps = .ok none) := by
  refine ⟨?_, ?_, ?_⟩
  · intro d rest ps hd htr
    unfold extractDataFromPage
    have hci : capturedItem (d :: rest) = apiItemOf d := rfl
    rw [hci, apiItemOf_eq d hd]
    simp [htr]
  · intro ps
    unfold extractDataFromPage
    have hci : capturedItem ([] : List JsVal) = .ok JsVal.undefined := rfl
    rw [hci]
    simp [JsVal.truthy]
  · intro cr ps hcr hst
    rcases hcr with hcr | ⟨d, rest, hcr, hd, htr⟩
    · subst hcr
      unfold extractDataFromPage
      have hci : capturedItem ([] : List JsVal) = .ok JsVal.undefined := rfl
      rw [hci]
      simp [JsVal.truthy, hst]
    · subst hcr
      unfold extractDataFromPage
      have hci : capturedItem (d :: rest) = apiItemOf d := rfl
      rw [hci, apiItemOf_eq d hd]
      simp [htr, hst]

/-- Witness for claim C9 (amended): a captured response with one item wins
over the embedded state with the api source tag, and with no captured
response and an empty embedded state the result is null without an error. -/
theorem extractDataFromPage_priority_witness :
    extractDataFromPage
        [JsVal.obj [("result", JsVal.obj [("items",
          JsVal.arr [JsVal.obj [("id", JsVal.num 7)]])])]]
        (.ok JsVal.undefined) =
      .ok (some { item := JsVal.obj [("id", JsVal.num 7)], source := "api" }) ∧
    extractDataFromPage [] (.ok JsVal.undefined) = .ok none := by
  constructor
  · exact extractDataFromPage_priority.1 _ [] (.ok JsVal.undefined) rfl rfl
  · exact extractDataFromPage_priority.2.2 [] (.ok JsVal.undefined) (Or.inl rfl) rfl

/-- Claim C10: with a non-positive maxRetries, withRetry returns an absent
result without ever invoking the wrapped operation: the trace records zero
invocations and no sleeps, whatever the operation would have returned. -/
theorem withRetry_nonpositive_skips_operation {T : Type} (op : Int → Except Unit T)
    (m : Int) (h : m ≤ 0) :
    withRetry op m = { result := none, attemptsMade := 0, sleeps := [] } := by
  rw [withRetry, withRetryGo_neg]
  omega

/-- Witness for claim C10: an operation that would succeed immediately is
never run when maxRetries is negative. -/
theorem withRetry_nonpositive_skips_operation_witness :
    withRetry (fun _ => Except.ok 7 : Int → Except Unit Nat) (-2) =
      { result := none, attemptsMade := 0, sleeps := [] } :=
  withRetry_nonpositive_skips_operation (fun _ => Except.ok 7) (-2) (by norm_num)
